import Mathlib

/-
Verification development for the node-llama-cpp compute-layer detector and
binding-verification supervisor.

Embedded sources:
  src/bindings/utils/detectAvailableComputeLayers.ts
  src/bindings/utils/testBindingBinary.ts

External collaborators (the semver library, Node's path module, the
filesystem, subprocess output) are modelled as explicit oracles or as
small Lean models of their documented behaviour; each such model carries a
comment saying what it stands for.
-/

namespace NodeLlamaCpp

/-! ## List-backed models of the JavaScript string methods used by the
source. Lean's own `String` functions are iterator-based and do not reduce
in the kernel, so these operate on the underlying character list. -/

def strToLower (s : String) : String := String.mk (s.data.map Char.toLower)

def strStartsWith (s pre : String) : Bool := pre.data.isPrefixOf s.data

def strDrop (s : String) (n : Nat) : String := String.mk (s.data.drop n)

/-- Splits a character list at the first occurrence of `sep`, returning
the part before it and the part after it. -/
def firstOccurAux (sep : List Char) : List Char → Option (List Char × List Char)
  | [] => none
  | c :: rest =>
    if sep.isPrefixOf (c :: rest) then some ([], (c :: rest).drop sep.length)
    else
      match firstOccurAux sep rest with
      | none => none
      | some pq => some (c :: pq.1, pq.2)

def splitGo (sep : List Char) : Nat → List Char → List (List Char)
  | 0, cs => [cs]
  | fuel + 1, cs =>
    match firstOccurAux sep cs with
    | none => [cs]
    | some pq => pq.1 :: splitGo sep fuel pq.2

/-- Model of JavaScript `String.prototype.split` with a nonempty
separator (the fuel bound exceeds the number of possible separator
occurrences, so it never runs out). -/
def strSplit (s sep : String) : List String :=
  (splitGo sep.data (s.data.length + 1) s.data).map String.mk

/-- Model of JavaScript `String.prototype.trim`. -/
def strTrim (s : String) : String :=
  String.mk (((s.data.dropWhile Char.isWhitespace).reverse.dropWhile
    Char.isWhitespace).reverse)

/-- Model of JavaScript `String.prototype.includes`. -/
def strContains (s sub : String) : Bool :=
  if sub.data.isEmpty then true else (firstOccurAux sub.data s.data).isSome

/-! ## Model of the semver library operations used by the detector

The source calls `semver.valid(semver.coerce(v))` to parse a folder-name
suffix and `semver.compare` to order two parsed versions.  `semver.coerce`
finds the first run of digits in the string and reads up to three
dot-separated numeric components from it, yielding `null` when the string
has no digits.  (The library caps each component at 16 digits; realistic
folder names never reach that, and the model omits the cap.)
`semver.compare` compares major, minor and patch numerically, returning
-1, 0 or 1. -/

def digitsToNat (ds : List Char) : Nat :=
  ds.foldl (fun n c => n * 10 + (c.toNat - '0'.toNat)) 0

/-- Reads `major(.minor(.patch)?)?` starting at a digit; consumes the
maximal digit runs, exactly as the coercion regex does. -/
def readVersionAt (cs : List Char) : Nat × Nat × Nat :=
  let major := digitsToNat (cs.takeWhile Char.isDigit)
  let rest₁ := cs.dropWhile Char.isDigit
  match rest₁ with
  | '.' :: cs₂ =>
    if (cs₂.headD ' ').isDigit then
      let minor := digitsToNat (cs₂.takeWhile Char.isDigit)
      let rest₂ := cs₂.dropWhile Char.isDigit
      match rest₂ with
      | '.' :: cs₃ =>
        if (cs₃.headD ' ').isDigit then
          (major, minor, digitsToNat (cs₃.takeWhile Char.isDigit))
        else
          (major, minor, 0)
      | _ => (major, minor, 0)
    else
      (major, 0, 0)
  | _ => (major, 0, 0)

/-- Model of `semver.coerce`: scan for the first digit and coerce from
there; `none` when the string contains no digit. -/
def semverCoerceList : List Char → Option (Nat × Nat × Nat)
  | [] => none
  | c :: rest =>
    if c.isDigit then some (readVersionAt (c :: rest))
    else semverCoerceList rest

def semverCoerce (s : String) : Option (Nat × Nat × Nat) :=
  semverCoerceList s.toList

/-- Model of `semver.compare` on coerced (prerelease-free) versions. -/
def semverCompare (x y : Nat × Nat × Nat) : Int :=
  if x.1 < y.1 then -1
  else if y.1 < x.1 then 1
  else if x.2.1 < y.2.1 then -1
  else if y.2.1 < x.2.1 then 1
  else if x.2.2 < y.2.2 then -1
  else if y.2.2 < x.2.2 then 1
  else 0

/-! ## The CUDA installation-folder ranking
(`getCudaInstallationPaths`, detectAvailableComputeLayers.ts lines 294-348
for the `v`-prefixed Windows folders and lines 371-400 for the
`cuda-`-prefixed Linux folders). -/

/-- Version parsed from a folder name: the source slices the prefix off the
original (non-lowercased) name and coerces the remainder. -/
def folderVersion (pre : String) (name : String) : Option (Nat × Nat × Nat) :=
  semverCoerce (strDrop name pre.data.length)

/-- The sort comparator from the source: parsed versions compare by
`semver.compare`; a parsable name compares before an unparsable one;
two unparsable names compare equal. -/
def folderCmp (pre : String) (a b : String) : Int :=
  match folderVersion pre a, folderVersion pre b with
  | some x, some y => semverCompare x y
  | some _, none => -1
  | none, some _ => 1
  | none, none => 0

def folderLe (pre : String) (a b : String) : Bool :=
  folderCmp pre a b ≤ 0

/-! ECMA-262 requires `Array.prototype.sort` to be stable, and with a
consistent comparator its output is the unique permutation that is sorted
with respect to the comparator and keeps tied elements in input order.
Stable insertion sort computes exactly that permutation, so it serves as
the model of the runtime sort (it is also structurally recursive, hence
kernel-computable). `le a b` stands for `comparator(a, b) <= 0`; an element
is inserted before the first existing element it compares strictly below,
i.e. after every element it ties with. -/

def jsSortInsert (le : α → α → Bool) (a : α) : List α → List α
  | [] => [a]
  | b :: bs => if le a b && !le b a then a :: b :: bs else b :: jsSortInsert le a bs

def jsStableSort (le : α → α → Bool) (l : List α) : List α :=
  l.foldl (fun acc a => jsSortInsert le a acc) []

/-- The ranking pipeline from the source: keep the folder names whose
lowercased form starts with the prefix, sort them with the comparator,
then reverse the result. -/
def rankVersionFolders (pre : String) (names : List String) : List String :=
  (jsStableSort (folderLe pre) (names.filter (fun n => strStartsWith (strToLower n) pre))).reverse

/-- Sanity facts about the coercion model on the suffixes the claims
mention. -/
theorem semverCoerce_examples :
    semverCoerce "9" = some (9, 0, 0) ∧ semverCoerce "10" = some (10, 0, 0) ∧
      semverCoerce "bogus" = none ∧ semverCoerce "12.2" = some (12, 2, 0) := by
  refine ⟨by decide, by decide, by decide, by decide⟩

/-! ### Order-theoretic facts about the comparator -/

theorem semverCompare_le_iff (x y : Nat × Nat × Nat) :
    (semverCompare x y ≤ 0) ↔
      (x.1 < y.1 ∨ (x.1 = y.1 ∧ (x.2.1 < y.2.1 ∨ (x.2.1 = y.2.1 ∧ x.2.2 ≤ y.2.2)))) := by
  unfold semverCompare
  split_ifs <;> omega

theorem semverCompare_trans {x y z : Nat × Nat × Nat}
    (h₁ : semverCompare x y ≤ 0) (h₂ : semverCompare y z ≤ 0) :
    semverCompare x z ≤ 0 := by
  rw [semverCompare_le_iff] at h₁ h₂ ⊢
  omega

theorem semverCompare_total (x y : Nat × Nat × Nat)
    (h : ¬ semverCompare x y ≤ 0) : semverCompare y x ≤ 0 := by
  rw [semverCompare_le_iff] at h ⊢
  omega

theorem folderLe_trans (pre : String) (a b c : String)
    (h₁ : folderLe pre a b = true) (h₂ : folderLe pre b c = true) :
    folderLe pre a c = true := by
  unfold folderLe folderCmp at h₁ h₂ ⊢
  cases ha : folderVersion pre a <;> cases hb : folderVersion pre b <;>
    cases hc : folderVersion pre c <;>
    simp_all [decide_eq_true_iff]
  exact semverCompare_trans h₁ h₂

theorem folderLe_total (pre : String) (a b : String)
    (h : folderLe pre a b = false) : folderLe pre b a = true := by
  unfold folderLe folderCmp at h ⊢
  cases ha : folderVersion pre a <;> cases hb : folderVersion pre b <;>
    simp_all [decide_eq_true_iff]
  exact semverCompare_total _ _ (by omega)

/-- Once a folder name is unparsable, the comparator never ranks it
strictly below anything: it ties with other unparsable names and ranks
above every parsable one. -/
theorem folderLe_of_isNone (pre : String) (a b : String)
    (ha : (folderVersion pre a).isNone = true)
    (hab : folderLe pre a b = true) : folderLe pre b a = true := by
  unfold folderLe folderCmp at hab ⊢
  cases h₁ : folderVersion pre a <;> cases h₂ : folderVersion pre b <;>
    simp_all

/-! ### Facts about the stable-sort model -/

theorem mem_jsSortInsert {le : α → α → Bool} {a x : α} {l : List α} :
    x ∈ jsSortInsert le a l ↔ x = a ∨ x ∈ l := by
  induction l with
  | nil => simp [jsSortInsert]
  | cons b bs ih =>
    unfold jsSortInsert
    split
    · simp [or_comm, or_left_comm]
    · simp only [List.mem_cons, ih]
      tauto

theorem pairwise_jsSortInsert {le : α → α → Bool}
    (trans : ∀ x y z, le x y = true → le y z = true → le x z = true)
    (total : ∀ x y, le x y = false → le y x = true)
    (a : α) (l : List α) (h : l.Pairwise (fun x y => le x y = true)) :
    (jsSortInsert le a l).Pairwise (fun x y => le x y = true) := by
  induction l with
  | nil => simp [jsSortInsert]
  | cons b bs ih =>
    rcases List.pairwise_cons.mp h with ⟨hb, hbs⟩
    unfold jsSortInsert
    split
    · rename_i hcond
      rw [Bool.and_eq_true, Bool.not_eq_true'] at hcond
      refine List.pairwise_cons.mpr ⟨?_, h⟩
      intro x hx
      rcases List.mem_cons.mp hx with rfl | hx
      · exact hcond.1
      · exact trans a b x hcond.1 (hb x hx)
    · rename_i hcond
      rw [Bool.and_eq_true, Bool.not_eq_true'] at hcond
      have hba : le b a = true := by
        cases hab : le a b with
        | false => exact total a b hab
        | true =>
          cases hba : le b a with
          | true => rfl
          | false => exact absurd ⟨hab, hba⟩ hcond
      refine List.pairwise_cons.mpr ⟨?_, ih hbs⟩
      intro x hx
      rcases mem_jsSortInsert.mp hx with rfl | hx
      · exact hba
      · exact hb x hx

theorem pairwise_jsStableSort {le : α → α → Bool}
    (trans : ∀ x y z, le x y = true → le y z = true → le x z = true)
    (total : ∀ x y, le x y = false → le y x = true)
    (l : List α) : (jsStableSort le l).Pairwise (fun x y => le x y = true) := by
  suffices h : ∀ (l acc : List α), acc.Pairwise (fun x y => le x y = true) →
      (List.foldl (fun acc a => jsSortInsert le a acc) acc l).Pairwise
        (fun x y => le x y = true) by
    exact h l [] (List.Pairwise.nil)
  intro l
  induction l with
  | nil => intro acc hacc; exact hacc
  | cons a rest ih =>
    intro acc hacc
    exact ih _ (pairwise_jsSortInsert trans total a acc hacc)

theorem jsSortInsert_eq_append {le : α → α → Bool} {a : α}
    (h : ∀ b, le a b = true → le b a = true) :
    ∀ l : List α, jsSortInsert le a l = l ++ [a] := by
  intro l
  induction l with
  | nil => rfl
  | cons b bs ih =>
    unfold jsSortInsert
    have hcond : (le a b && !le b a) = false := by
      cases hab : le a b with
      | false => simp
      | true => simp [h b hab]
    rw [hcond]
    simp [ih]

theorem filter_jsSortInsert_neg {le : α → α → Bool} {p : α → Bool} {a : α}
    (h : p a = false) :
    ∀ l : List α, (jsSortInsert le a l).filter p = l.filter p := by
  intro l
  induction l with
  | nil => simp [jsSortInsert, h]
  | cons b bs ih =>
    unfold jsSortInsert
    split
    · simp [h]
    · simp [List.filter_cons, ih]

/-- Stability of the sort on the elements a predicate selects, when those
elements never rank strictly below anything: they end up at the back, in
their original relative order. -/
theorem filter_jsStableSort {le : α → α → Bool} {p : α → Bool}
    (hp : ∀ a, p a = true → ∀ b, le a b = true → le b a = true)
    (l : List α) : (jsStableSort le l).filter p = l.filter p := by
  suffices h : ∀ (l acc : List α),
      (List.foldl (fun acc a => jsSortInsert le a acc) acc l).filter p
        = acc.filter p ++ l.filter p by
    simpa using h l []
  intro l
  induction l with
  | nil => intro acc; simp
  | cons a rest ih =>
    intro acc
    rw [List.foldl_cons, ih]
    cases hpa : p a with
    | true =>
      rw [jsSortInsert_eq_append (hp a hpa)]
      simp [List.filter_cons, hpa]
    | false =>
      rw [filter_jsSortInsert_neg hpa]
      simp [List.filter_cons, hpa]

/-- C1 counterexample: ranking the discovered folders `cuda-9`, `cuda-10`,
`cuda-bogus` yields `cuda-bogus, cuda-10, cuda-9` — the ascending sort is
reversed, which puts the unparsable name first, not last — refuting the
claimed order `cuda-10, cuda-9, cuda-bogus`. -/
theorem rankVersionFolders_example_refutes_claim :
    rankVersionFolders "cuda-" ["cuda-9", "cuda-10", "cuda-bogus"]
        = ["cuda-bogus", "cuda-10", "cuda-9"] ∧
      rankVersionFolders "cuda-" ["cuda-9", "cuda-10", "cuda-bogus"]
        ≠ ["cuda-10", "cuda-9", "cuda-bogus"] := by
  constructor
  · decide
  · decide

/-- C1 (amended): the ranking orders folders with a parsable version
suffix by parsed version descending, but places every folder with an
unparsable suffix BEFORE all parsable ones, and reverses the relative
discovery order among the unparsable ones.  Concretely: (a) any entry
following a parsable entry is itself parsable (so unparsable entries form
a prefix of the output), (b) parsable entries appear in descending
version order, and (c) the unparsable entries of the output are exactly
the unparsable discovered entries, reversed. -/
theorem rankVersionFolders_unparsable_first (pre : String) (names : List String) :
    (∀ i j : Fin (rankVersionFolders pre names).length, i < j →
        (folderVersion pre ((rankVersionFolders pre names).get i)).isSome = true →
        (folderVersion pre ((rankVersionFolders pre names).get j)).isSome = true) ∧
    (∀ i j : Fin (rankVersionFolders pre names).length, i < j →
        ∀ x y, folderVersion pre ((rankVersionFolders pre names).get i) = some x →
          folderVersion pre ((rankVersionFolders pre names).get j) = some y →
          semverCompare y x ≤ 0) ∧
    ((rankVersionFolders pre names).filter (fun n => (folderVersion pre n).isNone)
      = ((names.filter (fun n => strStartsWith (strToLower n) pre)).filter
          (fun n => (folderVersion pre n).isNone)).reverse) := by
  have hsorted := pairwise_jsStableSort (folderLe_trans pre) (folderLe_total pre)
    (names.filter (fun n => strStartsWith (strToLower n) pre))
  have hrev : (rankVersionFolders pre names).Pairwise
      (fun a b => folderLe pre b a = true) := by
    unfold rankVersionFolders
    exact List.pairwise_reverse.mpr hsorted
  have hget := List.pairwise_iff_get.mp hrev
  refine ⟨?_, ?_, ?_⟩
  · intro i j hij hisome
    have hle := hget i j hij
    cases hi : folderVersion pre ((rankVersionFolders pre names).get i) with
    | none => rw [hi] at hisome; simp at hisome
    | some x =>
      cases hj : folderVersion pre ((rankVersionFolders pre names).get j) with
      | none =>
        exfalso
        unfold folderLe folderCmp at hle
        rw [hi, hj] at hle
        simp at hle
      | some y => simp
  · intro i j hij x y hx hy
    have hle := hget i j hij
    unfold folderLe folderCmp at hle
    rw [hx, hy] at hle
    simpa [decide_eq_true_iff] using hle
  · unfold rankVersionFolders
    rw [List.filter_reverse]
    congr 1
    exact filter_jsStableSort
      (fun a ha b => folderLe_of_isNone pre a b (by simpa using ha)) _

/-- C1 witness: the amended theorem applied to the discovered folders of
the spec's own example. -/
theorem rankVersionFolders_unparsable_first_witness :
    (folderVersion "cuda-"
        ((rankVersionFolders "cuda-" ["cuda-9", "cuda-10", "cuda-bogus"]).get
          ⟨2, by decide⟩)).isSome = true ∧
    ((rankVersionFolders "cuda-" ["cuda-9", "cuda-10", "cuda-bogus"]).filter
        (fun n => (folderVersion "cuda-" n).isNone)
      = (( ["cuda-9", "cuda-10", "cuda-bogus"].filter
            (fun n => strStartsWith (strToLower n) "cuda-")).filter
          (fun n => (folderVersion "cuda-" n).isNone)).reverse) := by
  have h := rankVersionFolders_unparsable_first "cuda-" ["cuda-9", "cuda-10", "cuda-bogus"]
  exact ⟨h.1 ⟨1, by decide⟩ ⟨2, by decide⟩ (by decide) (by decide), h.2.2⟩

/-! ## Binding-verification supervisor
(src/bindings/utils/testBindingBinary.ts, `testBindingBinary`)

The supervisor races a deadline timer against a message-driven promise
chain and advances a per-request state machine from the events its
single-threaded event loop delivers: the timer firing, a worker message,
or the child-process exit. -/

/-- Worker-to-supervisor messages (`ChildToParentMessage`). -/
inductive ChildMsg
  | ready
  | loaded
  | done
deriving DecidableEq

/-- Supervisor-to-worker messages (`ParentToChildMessage`): `start`,
`test` and `exit` (named `exitCmd` here). -/
inductive ParentMsg
  | start
  | test
  | exitCmd
deriving DecidableEq

/-- Events the supervisor observes, in arrival order. The source turns a
null exit code into -1 (`code ?? -1`), so a code is an integer. -/
inductive SupEvent
  | timeout
  | msg (m : ChildMsg)
  | exited (code : Int)
deriving DecidableEq

/-- How the promise returned by `testBindingBinary` settles: `resolved b`
models `resolve(testPassed)`; the other two model `reject(new Error(...))`
on the timeout path and on the fork-failure path of `done()`. -/
inductive TestResult
  | resolved (passed : Bool)
  | rejectedTimeout
  | rejectedForkFailure
deriving DecidableEq

/-- Supervisor state for one request. `sends` records each message sent
to the worker together with all worker messages received up to that
moment; `killed` records that `cleanup()` has terminated the child. -/
structure SupState where
  result : Option TestResult := none
  testPassed : Bool := false
  forkSucceeded : Bool := false
  killed : Bool := false
  received : List ChildMsg := []
  sends : List (ParentMsg × List ChildMsg) := []
deriving DecidableEq

def initSupState : SupState := {}

/-- One step of the supervisor's event handling (lines 214-269). Once the
promise has settled (`result` set), `cleanup()` has cleared the timer and
killed the child, so later events have no effect. On `ready` the
supervisor marks the fork successful and sends `start`; on `loaded` it
sends `test`; on `done` it sets `testPassed` and sends `exit`; on child
exit it clears `testPassed` for a nonzero code and settles the promise —
rejecting when no `ready` was ever received (fork failure), resolving
`testPassed` otherwise; on the deadline it rejects with a timeout error. -/
def supStep (s : SupState) (e : SupEvent) : SupState :=
  match s.result with
  | some _ => s
  | none =>
    match e with
    | .timeout =>
      { s with result := some TestResult.rejectedTimeout, killed := true }
    | .msg .ready =>
      { s with forkSucceeded := true,
               received := s.received ++ [ChildMsg.ready],
               sends := s.sends ++ [(ParentMsg.start, s.received ++ [ChildMsg.ready])] }
    | .msg .loaded =>
      { s with received := s.received ++ [ChildMsg.loaded],
               sends := s.sends ++ [(ParentMsg.test, s.received ++ [ChildMsg.loaded])] }
    | .msg .done =>
      { s with testPassed := true,
               received := s.received ++ [ChildMsg.done],
               sends := s.sends ++ [(ParentMsg.exitCmd, s.received ++ [ChildMsg.done])] }
    | .exited code =>
      let passed := if code ≠ 0 then false else s.testPassed
      { s with testPassed := passed,
               result := some (if s.forkSucceeded then TestResult.resolved passed
                               else TestResult.rejectedForkFailure),
               killed := true }

def runSupervisor (evs : List SupEvent) : SupState :=
  evs.foldl supStep initSupState

theorem supStep_of_settled {s : SupState} {r : TestResult} (h : s.result = some r)
    (e : SupEvent) : supStep s e = s := by
  unfold supStep
  rw [h]

theorem foldl_supStep_of_settled {s : SupState} {r : TestResult}
    (h : s.result = some r) (evs : List SupEvent) :
    List.foldl supStep s evs = s := by
  induction evs with
  | nil => rfl
  | cons e rest ih => rw [List.foldl_cons, supStep_of_settled h, ih]

/-- C3 counterexample: when the worker never emits a message and the
deadline fires, the call does not resolve to any classification — the
promise is rejected (the caller's `await` throws), contradicting the
claimed never-throwing contract. -/
theorem timeout_rejects_counterexample :
    (runSupervisor [SupEvent.timeout]).result = some TestResult.rejectedTimeout ∧
    some TestResult.rejectedTimeout ≠ some (TestResult.resolved true) ∧
    some TestResult.rejectedTimeout ≠ some (TestResult.resolved false) ∧
    (runSupervisor [SupEvent.timeout]).killed = true := by
  refine ⟨rfl, by decide, by decide, rfl⟩

/-- C3 (amended): the call resolves `false` for failures observed as a
child exit after a successful fork (load failure, mismatch), but for a
timeout — and likewise for a fork failure — it rejects the returned
promise with an `Error`, so the caller's `await` throws; on the timeout
path the child process is killed. -/
theorem timeout_and_forkFailure_reject (rest : List SupEvent) :
    ((runSupervisor (SupEvent.timeout :: rest)).result
        = some TestResult.rejectedTimeout ∧
      (runSupervisor (SupEvent.timeout :: rest)).killed = true) ∧
    (runSupervisor (SupEvent.msg ChildMsg.ready :: SupEvent.exited 1 :: rest)).result
        = some (TestResult.resolved false) ∧
    (∀ c : Int, (runSupervisor (SupEvent.exited c :: rest)).result
        = some TestResult.rejectedForkFailure) := by
  refine ⟨⟨?_, ?_⟩, ?_, ?_⟩
  · unfold runSupervisor
    rw [List.foldl_cons, foldl_supStep_of_settled (r := TestResult.rejectedTimeout) rfl]
    rfl
  · unfold runSupervisor
    rw [List.foldl_cons, foldl_supStep_of_settled (r := TestResult.rejectedTimeout) rfl]
    rfl
  · unfold runSupervisor
    rw [List.foldl_cons, List.foldl_cons,
      foldl_supStep_of_settled (r := TestResult.resolved false) rfl]
    rfl
  · intro c
    unfold runSupervisor
    rw [List.foldl_cons,
      foldl_supStep_of_settled (r := TestResult.rejectedForkFailure) rfl]
    rfl

theorem foldl_resolved_true_aux :
    ∀ (evs : List SupEvent) (s : SupState), s.result = none →
      (List.foldl supStep s evs).result = some (TestResult.resolved true) →
      ∃ (pre post : List SupEvent) (c : Int), evs = pre ++ SupEvent.exited c :: post ∧ c = 0 ∧
        (SupEvent.msg ChildMsg.done ∈ pre ∨ s.testPassed = true) ∧
        (∀ e ∈ pre, e ≠ SupEvent.timeout ∧ ∀ k : Int, e ≠ SupEvent.exited k) := by
  intro evs
  induction evs with
  | nil =>
    intro s hs h
    rw [List.foldl_nil, hs] at h
    exact absurd h (by simp)
  | cons e rest ih =>
    intro s hs h
    rw [List.foldl_cons] at h
    cases e with
    | timeout =>
      rw [show supStep s SupEvent.timeout
          = { s with result := some TestResult.rejectedTimeout, killed := true } by
        unfold supStep; rw [hs]] at h
      rw [foldl_supStep_of_settled rfl] at h
      exact absurd h (by simp)
    | msg m =>
      have hs' : (supStep s (SupEvent.msg m)).result = none := by
        unfold supStep; rw [hs]; cases m <;> simp
      obtain ⟨pre, post, c, h₁, h₂, h₃, h₄⟩ := ih (supStep s (SupEvent.msg m)) hs' h
      refine ⟨SupEvent.msg m :: pre, post, c, by rw [h₁]; rfl, h₂, ?_, ?_⟩
      · rcases h₃ with h₃ | h₃
        · exact Or.inl (List.mem_cons_of_mem _ h₃)
        · cases m with
          | done => exact Or.inl (List.mem_cons_self _ _)
          | ready =>
            refine Or.inr ?_
            have : (supStep s (SupEvent.msg ChildMsg.ready)).testPassed = s.testPassed := by
              unfold supStep; rw [hs]
            rw [this] at h₃; exact h₃
          | loaded =>
            refine Or.inr ?_
            have : (supStep s (SupEvent.msg ChildMsg.loaded)).testPassed = s.testPassed := by
              unfold supStep; rw [hs]
            rw [this] at h₃; exact h₃
      · intro x hx
        rcases List.mem_cons.mp hx with rfl | hx
        · exact ⟨by simp, by simp⟩
        · exact h₄ x hx
    | exited c =>
      have hstep : supStep s (SupEvent.exited c)
          = { s with testPassed := if c ≠ 0 then false else s.testPassed,
                     result := some (if s.forkSucceeded
                       then TestResult.resolved (if c ≠ 0 then false else s.testPassed)
                       else TestResult.rejectedForkFailure),
                     killed := true } := by
        unfold supStep; rw [hs]
      rw [hstep, foldl_supStep_of_settled rfl] at h
      simp only at h
      have hres : (if s.forkSucceeded
          then TestResult.resolved (if c ≠ 0 then false else s.testPassed)
          else TestResult.rejectedForkFailure) = TestResult.resolved true := by
        exact Option.some.inj h
      cases hfork : s.forkSucceeded with
      | false => rw [hfork] at hres; simp at hres
      | true =>
        rw [hfork] at hres
        simp only [if_true] at hres
        have hpassed : (if c ≠ 0 then false else s.testPassed) = true :=
          TestResult.resolved.inj hres
      -- a nonzero code would force `false = true`
        by_cases hc : c = 0
        · subst hc
          simp only [ne_eq, not_true_eq_false, if_neg, ite_false] at hpassed
          refine ⟨[], rest, 0, rfl, rfl, Or.inr ?_, by simp⟩
          simpa using hpassed
        · rw [if_pos hc] at hpassed
          exact absurd hpassed (by simp)

/-- C4: the result is `Passed` (`resolve(true)`) only if the worker
emitted `done` and the child-exit event that settled the promise carried
code 0, with `done` observed strictly before that exit, no earlier exit,
and no earlier timeout. Contrapositive: a child exit with code 0 before
`done`, or a nonzero exit at any point before settlement, cannot produce
`Passed`. -/
theorem passed_requires_done_then_clean_exit (evs : List SupEvent)
    (h : (runSupervisor evs).result = some (TestResult.resolved true)) :
    ∃ (pre post : List SupEvent) (c : Int), evs = pre ++ SupEvent.exited c :: post ∧ c = 0 ∧
      SupEvent.msg ChildMsg.done ∈ pre ∧
      (∀ e ∈ pre, e ≠ SupEvent.timeout ∧ ∀ k : Int, e ≠ SupEvent.exited k) := by
  obtain ⟨pre, post, c, h₁, h₂, h₃, h₄⟩ := foldl_resolved_true_aux evs initSupState rfl h
  refine ⟨pre, post, c, h₁, h₂, ?_, h₄⟩
  rcases h₃ with h₃ | h₃
  · exact h₃
  · exact absurd h₃ (by simp [initSupState])

/-- C4 witness: a handshake that runs to completion and exits cleanly is
classified `Passed`, and the theorem recovers the done-before-clean-exit
structure of its event sequence. -/
theorem passed_requires_done_then_clean_exit_witness :
    (runSupervisor [SupEvent.msg ChildMsg.ready, SupEvent.msg ChildMsg.loaded,
        SupEvent.msg ChildMsg.done, SupEvent.exited 0]).result
      = some (TestResult.resolved true) ∧
    ∃ (pre post : List SupEvent) (c : Int),
      [SupEvent.msg ChildMsg.ready, SupEvent.msg ChildMsg.loaded,
        SupEvent.msg ChildMsg.done, SupEvent.exited 0]
        = pre ++ SupEvent.exited c :: post ∧ c = 0 ∧
      SupEvent.msg ChildMsg.done ∈ pre ∧
      (∀ e ∈ pre, e ≠ SupEvent.timeout ∧ ∀ k : Int, e ≠ SupEvent.exited k) :=
  ⟨by decide, passed_requires_done_then_clean_exit _ (by decide)⟩

theorem sends_ok_aux :
    ∀ (evs : List SupEvent) (s : SupState),
      (∀ pr ∈ s.sends,
        (pr.1 = ParentMsg.start → ChildMsg.ready ∈ pr.2) ∧
        (pr.1 = ParentMsg.test → ChildMsg.loaded ∈ pr.2) ∧
        (pr.1 = ParentMsg.exitCmd → ChildMsg.done ∈ pr.2)) →
      ∀ pr ∈ (List.foldl supStep s evs).sends,
        (pr.1 = ParentMsg.start → ChildMsg.ready ∈ pr.2) ∧
        (pr.1 = ParentMsg.test → ChildMsg.loaded ∈ pr.2) ∧
        (pr.1 = ParentMsg.exitCmd → ChildMsg.done ∈ pr.2) := by
  intro evs
  induction evs with
  | nil => intro s hinv; exact hinv
  | cons e rest ih =>
    intro s hinv
    rw [List.foldl_cons]
    refine ih (supStep s e) ?_
    intro pr hpr
    unfold supStep at hpr
    cases hres : s.result with
    | some r => rw [hres] at hpr; exact hinv pr hpr
    | none =>
      rw [hres] at hpr
      cases e with
      | timeout => exact hinv pr hpr
      | exited c => exact hinv pr hpr
      | msg m =>
        cases m with
        | ready =>
          simp only [List.mem_append, List.mem_singleton] at hpr
          rcases hpr with hpr | rfl
          · exact hinv pr hpr
          · exact ⟨fun _ => by simp, fun h => by simp at h, fun h => by simp at h⟩
        | loaded =>
          simp only [List.mem_append, List.mem_singleton] at hpr
          rcases hpr with hpr | rfl
          · exact hinv pr hpr
          · exact ⟨fun h => by simp at h, fun _ => by simp, fun h => by simp at h⟩
        | done =>
          simp only [List.mem_append, List.mem_singleton] at hpr
          rcases hpr with hpr | rfl
          · exact ⟨(hinv pr hpr).1, (hinv pr hpr).2.1, (hinv pr hpr).2.2⟩
          · exact ⟨fun h => by simp at h, fun h => by simp at h, fun _ => by simp⟩

/-- C5: for every event sequence, every message the supervisor sends is
justified by a prior receipt: `start` is sent only after `ready` has been
received, `test` only after `loaded`, and `exit` only after `done`. -/
theorem supervisor_send_order (evs : List SupEvent)
    (pr : ParentMsg × List ChildMsg) (hpr : pr ∈ (runSupervisor evs).sends) :
    (pr.1 = ParentMsg.start → ChildMsg.ready ∈ pr.2) ∧
    (pr.1 = ParentMsg.test → ChildMsg.loaded ∈ pr.2) ∧
    (pr.1 = ParentMsg.exitCmd → ChildMsg.done ∈ pr.2) :=
  sends_ok_aux evs initSupState (by simp [initSupState]) pr hpr

/-- C5 witness: in the run that receives `ready` then `loaded`, the `test`
send carries a receipt set that indeed contains `loaded`. -/
theorem supervisor_send_order_witness :
    (ParentMsg.test, [ChildMsg.ready, ChildMsg.loaded])
        ∈ (runSupervisor [SupEvent.msg ChildMsg.ready, SupEvent.msg ChildMsg.loaded]).sends ∧
      ChildMsg.loaded ∈ [ChildMsg.ready, ChildMsg.loaded] :=
  ⟨by decide,
    (supervisor_send_order [SupEvent.msg ChildMsg.ready, SupEvent.msg ChildMsg.loaded]
      (ParentMsg.test, [ChildMsg.ready, ChildMsg.loaded]) (by decide)).2.1 rfl⟩

/-! ## The bundling escape hatch at the top of `testBindingBinary`
(lines 24-36): before anything else, the function checks that its own
module file name starts with the expected independent file name; if not,
it warns and returns `true` without creating any subprocess. -/

def expectedFileName : String := "testBindingBinary"

/-- Outcome of one `testBindingBinary` call at the top level: whether the
bundling warning was printed, whether a worker subprocess was created,
and how the returned promise settled (`none` = still pending). -/
structure TopRun where
  warned : Bool
  spawnedWorker : Bool
  result : Option TestResult
deriving DecidableEq

/-- Model of `testBindingBinary` as a whole: the file-name escape hatch,
then the supervisor state machine driven by the event sequence. (The
node-SEA escape hatch at lines 39-55 concerns a Snap-specific runtime
probe with the same optimistic outcome and is not modelled.) -/
def testBindingBinaryTop (detectedFileName : String) (evs : List SupEvent) : TopRun :=
  if !(strStartsWith detectedFileName expectedFileName) then
    { warned := true, spawnedWorker := false,
      result := some (TestResult.resolved true) }
  else
    { warned := false, spawnedWorker := true,
      result := (runSupervisor evs).result }

/-- C6: whenever the detected module file name does not start with
`testBindingBinary`, the call warns and immediately returns the
optimistic `Passed` (`true`) result, spawning no worker, regardless of
any events. -/
theorem bundled_escape_hatch (detectedFileName : String) (evs : List SupEvent)
    (h : strStartsWith detectedFileName expectedFileName = false) :
    testBindingBinaryTop detectedFileName evs
      = { warned := true, spawnedWorker := false,
          result := some (TestResult.resolved true) } := by
  unfold testBindingBinaryTop
  rw [h]
  rfl

/-- C6 witness: a bundled module name triggers the escape hatch. -/
theorem bundled_escape_hatch_witness :
    testBindingBinaryTop "bundle.js" [SupEvent.timeout]
      = { warned := true, spawnedWorker := false,
          result := some (TestResult.resolved true) } :=
  bundled_escape_hatch "bundle.js" [SupEvent.timeout] (by decide)

/-! ## The verification worker's `test` phase
(testBindingBinary.ts lines 294-342).

The loaded binding's native functions are opaque externals; a
`BindingOracle` records, for one run, whether each call throws and what
`getGpuType` reports. -/

/-- What `binding.getGpuType()` reports: a backend identifier string,
`false` (explicitly no GPU backend), or null/undefined. -/
inductive GpuReport
  | kind (s : String)
  | fls
  | nul
deriving DecidableEq

/-- The `BuildGpu` type from bindings/types.ts: a backend identifier
string or `false` for the no-GPU build. -/
inductive BuildGpu
  | kind (s : String)
  | noGpu
deriving DecidableEq

/-- Strict equality `gpuType === message.gpu` between a report and the
expected kind (null/undefined never equals a string or `false`). -/
def gpuTypeMatches (r : GpuReport) (g : BuildGpu) : Bool :=
  match r, g with
  | .kind s, .kind t => s == t
  | .fls, .noGpu => true
  | _, _ => false

/-- The re-probe condition from line 306:
`loadedGpu == null || (loadedGpu === false && message.gpu !== false)`
(JavaScript `== null` also catches undefined, which `GpuReport.nul`
stands for). -/
def shouldReprobe (r : GpuReport) (g : BuildGpu) : Bool :=
  (r == GpuReport.nul) || ((r == GpuReport.fls) && !(g == BuildGpu.noGpu))

/-- Model of Node's `path.resolve` for already-normalized inputs: an
absolute path is kept, a relative one is joined to the working
directory. -/
def pathResolve (cwd p : String) : String :=
  if strStartsWith p "/" then p else cwd ++ "/" ++ p

/-- Model of Node's `path.dirname` for simple paths: strip the last
slash-separated component. -/
def pathDirname (s : String) : String :=
  match s.data.reverse.dropWhile (fun c => c ≠ '/') with
  | [] => "."
  | _ :: rest => if rest.isEmpty then "/" else String.mk rest.reverse

/-- How the worker's `test` handler ends: it either sends `done` to the
supervisor, or exits the process with a code. -/
inductive ChildOutcome
  | doneSent
  | exited (code : Int)
deriving DecidableEq

/-- Behaviour of the opaque native binding during one `test` run: whether
each called function throws, and the two `getGpuType()` reports. -/
structure BindingOracle where
  loadBackendsOk : Bool
  gpu1 : GpuReport
  reprobeOk : Bool
  initOk : Bool
  vramOk : Bool
  deviceInfoOk : Bool
  gpu2 : GpuReport
  ensureOk : Bool
deriving DecidableEq

structure ChildTestRun where
  outcome : ChildOutcome
  reprobeHint : Option String
deriving DecidableEq

/-- The worker's handler for the `test` message, for a worker whose
`start` phase succeeded (so the binding is loaded). It calls
`loadBackends()`, reads `getGpuType()`, re-probes with the directory of
the resolved binary path when the re-probe condition holds, awaits
`init()`, queries VRAM and device info, re-reads `getGpuType()` and
throws on a mismatch with the expected kind, then asserts device support;
any throw is caught by the surrounding try/catch, which exits the process
with code 1; on full success the worker sends `done`. The run also
records the directory hint passed to the re-probing `loadBackends`
call when that call happens. -/
def runChildTest (b : BindingOracle) (gpu : BuildGpu)
    (bindingBinaryPath cwd : String) : ChildTestRun :=
  if !b.loadBackendsOk then { outcome := .exited 1, reprobeHint := none }
  else
    let reprobe := shouldReprobe b.gpu1 gpu
    { outcome :=
        if reprobe && !b.reprobeOk then .exited 1
        else if !b.initOk then .exited 1
        else if !b.vramOk then .exited 1
        else if !b.deviceInfoOk then .exited 1
        else if !(gpuTypeMatches b.gpu2 gpu) then .exited 1
        else if !b.ensureOk then .exited 1
        else .doneSent,
      reprobeHint :=
        if reprobe then some (pathDirname (pathResolve cwd bindingBinaryPath))
        else none }

/-- A run in which the binding loads and works but reports `vulkan` while
the request expects `cuda`. -/
def vulkanInsteadOfCuda : BindingOracle :=
  { loadBackendsOk := true, gpu1 := GpuReport.kind "vulkan", reprobeOk := true,
    initOk := true, vramOk := true, deviceInfoOk := true,
    gpu2 := GpuReport.kind "vulkan", ensureOk := true }

/-- C2 counterexample: on a backend identity mismatch (worker reports
`vulkan`, request expects `cuda`) the worker exits with code 1 — not the
claimed clean exit — and the supervisor, observing a nonzero exit,
resolves `false` exactly as it does for a crash. -/
theorem mismatch_not_clean_exit_counterexample :
    (runChildTest vulkanInsteadOfCuda (BuildGpu.kind "cuda") "good.bin" "/work").outcome
        = ChildOutcome.exited 1 ∧
      ChildOutcome.exited 1 ≠ ChildOutcome.exited 0 ∧
      (runSupervisor [SupEvent.msg ChildMsg.ready, SupEvent.msg ChildMsg.loaded,
          SupEvent.exited 1]).result = some (TestResult.resolved false) := by
  refine ⟨by decide, by decide, by decide⟩

/-- C2 (amended): when the binary loads, the functional steps succeed,
and the self-reported backend differs from the expected `backendKind`,
the mismatch error is thrown inside the worker's try/catch and the worker
exits with code 1 (nonzero — the same signal a crash produces, not a
clean exit); the supervisor observes the nonzero exit and resolves the
call to `false` without throwing. -/
theorem mismatch_exits_nonzero (b : BindingOracle) (gpu : BuildGpu) (p cwd : String)
    (hload : b.loadBackendsOk = true)
    (hreprobe : b.reprobeOk = true)
    (hinit : b.initOk = true)
    (hvram : b.vramOk = true)
    (hdev : b.deviceInfoOk = true)
    (hmismatch : gpuTypeMatches b.gpu2 gpu = false) :
    (runChildTest b gpu p cwd).outcome = ChildOutcome.exited 1 ∧
      (runSupervisor [SupEvent.msg ChildMsg.ready, SupEvent.msg ChildMsg.loaded,
          SupEvent.exited 1]).result = some (TestResult.resolved false) := by
  refine ⟨?_, by decide⟩
  unfold runChildTest
  simp [hload, hreprobe, hinit, hvram, hdev, hmismatch]

/-- C2 witness: the amended theorem at the vulkan-instead-of-cuda run. -/
theorem mismatch_exits_nonzero_witness :
    (runChildTest vulkanInsteadOfCuda (BuildGpu.kind "cuda") "good.bin" "/work").outcome
        = ChildOutcome.exited 1 ∧
      (runSupervisor [SupEvent.msg ChildMsg.ready, SupEvent.msg ChildMsg.loaded,
          SupEvent.exited 1]).result = some (TestResult.resolved false) :=
  mismatch_exits_nonzero vulkanInsteadOfCuda (BuildGpu.kind "cuda") "good.bin" "/work"
    rfl rfl rfl rfl rfl (by decide)

theorem shouldReprobe_iff (r : GpuReport) (g : BuildGpu) :
    shouldReprobe r g = true
      ↔ (r = GpuReport.nul ∨ (r = GpuReport.fls ∧ g ≠ BuildGpu.noGpu)) := by
  cases r <;> cases g <;> simp [shouldReprobe]

/-- C7: for a worker whose first `loadBackends()` call succeeds, the
backend re-probe — `loadBackends` called again with the directory of the
resolved candidate binary path — happens exactly when the first reported
backend identifier is null/undefined, or is `false` while the expected
kind is not itself `false`; otherwise the worker proceeds without
re-probing. -/
theorem reprobe_exactly_when (b : BindingOracle) (gpu : BuildGpu) (p cwd : String)
    (hload : b.loadBackendsOk = true) :
    ((runChildTest b gpu p cwd).reprobeHint
          = some (pathDirname (pathResolve cwd p))
        ↔ (b.gpu1 = GpuReport.nul ∨ (b.gpu1 = GpuReport.fls ∧ gpu ≠ BuildGpu.noGpu))) ∧
      ((runChildTest b gpu p cwd).reprobeHint = none
        ↔ ¬(b.gpu1 = GpuReport.nul ∨ (b.gpu1 = GpuReport.fls ∧ gpu ≠ BuildGpu.noGpu))) := by
  have hhint : (runChildTest b gpu p cwd).reprobeHint
      = if shouldReprobe b.gpu1 gpu then some (pathDirname (pathResolve cwd p))
        else none := by
    unfold runChildTest
    rw [hload]
    rfl
  rw [hhint, ← shouldReprobe_iff]
  cases h : shouldReprobe b.gpu1 gpu <;> simp

/-- C7 witness: a run whose first report is null re-probes with the
binary's directory. -/
theorem reprobe_exactly_when_witness :
    (runChildTest
        { loadBackendsOk := true, gpu1 := GpuReport.nul, reprobeOk := true,
          initOk := true, vramOk := true, deviceInfoOk := true,
          gpu2 := GpuReport.kind "cuda", ensureOk := true }
        (BuildGpu.kind "cuda") "good.bin" "/work").reprobeHint
      = some (pathDirname (pathResolve "/work" "good.bin")) :=
  (reprobe_exactly_when
      { loadBackendsOk := true, gpu1 := GpuReport.nul, reprobeOk := true,
        initOk := true, vramOk := true, deviceInfoOk := true,
        gpu2 := GpuReport.kind "cuda", ensureOk := true }
      (BuildGpu.kind "cuda") "good.bin" "/work" rfl).1.mpr (Or.inl rfl)

/-! ## The compute-layer detector
(src/bindings/utils/detectAvailableComputeLayers.ts)

The detector's interactions with the outside world — file existence,
directory listings, environment variables, and the stdout of the
per-platform hardware-enumeration command — are collected in a
`DetectorEnv` oracle. Operations that can throw in the source
(`fs.readdir`, `execAsync`) return `Except` so the source's try/catch
structure is explicit; `fs.pathExists` never rejects. -/

/-- The `BinaryPlatform` values the detector branches on
(`platform === "win" | "linux" | "mac"`). -/
inductive BinaryPlatform
  | win
  | linux
  | mac
deriving DecidableEq

structure DetectorEnv where
  pathExists : String → Bool
  readdir : String → Except String (List String)
  defaultSearchPaths : List String
  envVar : String → Option String
  arcExec : BinaryPlatform → Except String String

/-- Model of `path.join` for the two-argument uses in this file; the
platform separator choice is immaterial because paths only ever feed the
`pathExists` oracle. -/
def joinPath (a b : String) : String := a ++ "/" ++ b

/-- Modelled from the spec: PathProbe (`hasFileInPath`, whose source file
is not among the sources) — "tests whether a named shared library exists
anywhere in a list of candidate directories (plus default search
locations). Pure, synchronous, no state." Null/undefined entries of the
candidate list are skipped. -/
def hasFileInPath (env : DetectorEnv) (fileName : String)
    (searchPaths : List (Option String) := []) : Bool :=
  ((searchPaths.filterMap id) ++ env.defaultSearchPaths).any
    (fun d => env.pathExists (joinPath d fileName))

/-- Modelled from the spec: `asyncSome` (utility file not among the
sources) resolves to whether some promised boolean is true. -/
def asyncSome (l : List Bool) : Bool := l.any id

/-- Modelled from the spec: `asyncEvery` (utility file not among the
sources) resolves to whether every promised boolean is true. -/
def asyncEvery (l : List Bool) : Bool := l.all id

/-- JavaScript `a || b || ... || dflt` over possibly-undefined strings:
the first value that is neither undefined nor empty (empty strings are
falsy). Used by `getWindir`. -/
def firstTruthy : List (Option String) → String → String
  | [], d => d
  | some s :: rest, d => if s = "" then firstTruthy rest d else s
  | none :: rest, d => firstTruthy rest d

def getWindir (env : DetectorEnv) : String :=
  firstTruthy [env.envVar "windir", env.envVar "WINDIR", env.envVar "SystemRoot",
    env.envVar "systemroot", env.envVar "SYSTEMROOT"] "C:\\Windows"

def dedupKeepFirstAux : List String → List String → List String
  | _, [] => []
  | seen, x :: xs =>
    if x ∈ seen then dedupKeepFirstAux seen xs
    else x :: dedupKeepFirstAux (x :: seen) xs

/-- Model of `Array.from(new Set(xs))`: drop duplicates, keeping first
occurrences in order. -/
def dedupKeepFirst (l : List String) : List String := dedupKeepFirstAux [] l

def getWindowsProgramFilesPaths (env : DetectorEnv) : List String :=
  let systemDrive := (env.envVar "SystemDrive").getD "C:"
  dedupKeepFirst (([
      env.envVar "ProgramFiles(Arm)",
      env.envVar "ProgramFiles",
      env.envVar "ProgramFiles(x86)",
      some (systemDrive ++ "\\Program Files (Arm)"),
      some (systemDrive ++ "\\Program Files"),
      some (systemDrive ++ "\\Program Files (x86)")].filterMap id).filter env.pathExists)

/-- Prepend `process.env.CUDA_PATH` when it is set and nonempty. -/
def cudaPathPrepend (env : DetectorEnv) (l : List String) : List String :=
  match env.envVar "CUDA_PATH" with
  | some s => if s = "" then l else s :: l
  | none => l

/-- `getCudaInstallationPaths` (lines 289-422). On Windows the whole
computation sits in one try/catch, so any `readdir` failure yields `[]`;
on Linux the only `readdir` call is the first awaited step inside the
try, so a failure yields the so-far-empty result. -/
def getCudaInstallationPaths (env : DetectorEnv) (platform : BinaryPlatform) :
    List String :=
  match platform with
  | .win =>
    let containers := ((getWindowsProgramFilesPaths env).map
      (fun p => p ++ "/NVIDIA GPU Computing Toolkit/CUDA")).filter env.pathExists
    match containers.mapM
        (fun c => if env.pathExists c then env.readdir c else Except.ok []) with
    | .error _ => []
    | .ok namess =>
      let ranked := (containers.zip namess).flatMap
        (fun cn => (rankVersionFolders "v" cn.2).map (fun n => cn.1 ++ "/" ++ n))
      (cudaPathPrepend env ranked).filter env.pathExists
  | .linux =>
    match (if env.pathExists "/usr/local"
        then env.readdir "/usr/local" else Except.ok []) with
    | .error _ => []
    | .ok names =>
      let ranked := (rankVersionFolders "cuda-" names).map
        (fun n => "/usr/local/" ++ n)
      (cudaPathPrepend env ("/usr/local/cuda" :: ranked)).filter
        (fun f => env.pathExists (f ++ "/targets"))
  | .mac => []

/-- The loop of `getLinuxCudaLibraryPaths` (lines 266-287): its try/catch
wraps the whole loop, so a `readdir` failure returns whatever was pushed
so far. -/
def linuxCudaLibraryPathsLoop (env : DetectorEnv) :
    List String → List String → List String
  | [], acc => acc
  | p :: rest, acc =>
    if env.pathExists (p ++ "/targets") then
      match env.readdir (p ++ "/targets") with
      | .error _ => acc
      | .ok names =>
        linuxCudaLibraryPathsLoop env rest
          (acc ++ names.flatMap (fun n =>
            [p ++ "/targets/" ++ n ++ "/lib", p ++ "/targets/" ++ n ++ "/lib/stubs"]))
    else linuxCudaLibraryPathsLoop env rest acc

def getLinuxCudaLibraryPaths (env : DetectorEnv) : List String :=
  linuxCudaLibraryPathsLoop env (getCudaInstallationPaths env BinaryPlatform.linux) []

structure CudaSupport where
  hasNvidiaDriver : Bool
  hasCudaRuntime : Bool
deriving DecidableEq

/-- The Windows CUDA library search paths: every ranked installation path
plus its `bin` subdirectory (line 123-124). -/
def winCudaSearchPaths (env : DetectorEnv) : List (Option String) :=
  ((getCudaInstallationPaths env BinaryPlatform.win).flatMap
    (fun p => [p, joinPath p "bin"])).map some

/-- The Linux CUDA library search paths (lines 161-170). -/
def linuxCudaSearchPaths (env : DetectorEnv) : List (Option String) :=
  [env.envVar "LD_LIBRARY_PATH", env.envVar "CUDA_PATH"] ++
    (["/usr/lib", "/usr/lib64", "/usr/lib/x86_64-linux-gnu",
      "/usr/lib/aarch64-linux-gnu", "/usr/lib/armv7l-linux-gnu"].map some) ++
    (getLinuxCudaLibraryPaths env).map some

/-- `detectCudaSupport` (lines 117-216). -/
def detectCudaSupport (env : DetectorEnv) (platform : BinaryPlatform) : CudaSupport :=
  match platform with
  | .win =>
    let ps := winCudaSearchPaths env
    { hasNvidiaDriver := asyncSome [
        hasFileInPath env "nvml.dll",
        env.pathExists (joinPath (joinPath (getWindir env) "System32") "nvml.dll")],
      hasCudaRuntime := asyncEvery [
        asyncSome [
          hasFileInPath env "cudart64_110.dll" ps,
          hasFileInPath env "cudart64_11.dll" ps,
          hasFileInPath env "cudart64_12.dll" ps,
          hasFileInPath env "cudart64_13.dll" ps],
        asyncSome [
          hasFileInPath env "cublas64_11.dll" ps,
          hasFileInPath env "cublas64_12.dll" ps,
          hasFileInPath env "cublas64_13.dll" ps],
        asyncSome [
          hasFileInPath env "cublasLt64_11.dll" ps,
          hasFileInPath env "cublasLt64_12.dll" ps,
          hasFileInPath env "cublasLt64_13.dll" ps]] }
  | .linux =>
    let ps := linuxCudaSearchPaths env
    { hasNvidiaDriver := asyncSome [
        hasFileInPath env "libnvidia-ml.so" ps,
        hasFileInPath env "libnvidia-ml.so.1" ps],
      hasCudaRuntime := asyncEvery [
        asyncSome [
          hasFileInPath env "libcuda.so" ps,
          hasFileInPath env "libcuda.so.1" ps],
        asyncSome [
          hasFileInPath env "libcudart.so" ps,
          hasFileInPath env "libcudart.so.11" ps,
          hasFileInPath env "libcudart.so.12" ps,
          hasFileInPath env "libcudart.so.13" ps],
        asyncSome [
          hasFileInPath env "libcublas.so" ps,
          hasFileInPath env "libcublas.so.11" ps,
          hasFileInPath env "libcublas.so.12" ps,
          hasFileInPath env "libcublas.so.13" ps],
        asyncSome [
          hasFileInPath env "libcublasLt.so" ps,
          hasFileInPath env "libcublasLt.so.11" ps,
          hasFileInPath env "libcublasLt.so.12" ps,
          hasFileInPath env "libcublasLt.so.13" ps]] }
  | .mac => { hasNvidiaDriver := false, hasCudaRuntime := false }

/-- `detectVulkanSupport` (lines 218-256). -/
def detectVulkanSupport (env : DetectorEnv) (platform : BinaryPlatform) : Bool :=
  match platform with
  | .win =>
    asyncSome [
      hasFileInPath env "vulkan-1.dll",
      env.pathExists (joinPath (joinPath (getWindir env) "System32") "vulkan-1.dll"),
      env.pathExists (joinPath (joinPath (getWindir env) "SysWOW64") "vulkan-1.dll")]
  | .linux =>
    let termux : Option String :=
      match env.envVar "PREFIX" with
      | some s => if strContains (strToLower s) "termux" then some (s ++ "/usr/lib") else none
      | none => none
    let ps : List (Option String) :=
      [env.envVar "LD_LIBRARY_PATH"] ++
        (["/usr/lib", "/usr/lib64", "/usr/lib/x86_64-linux-gnu",
          "/usr/lib/aarch64-linux-gnu", "/usr/lib/armv7l-linux-gnu"].map some) ++
        [termux]
    asyncSome [
      hasFileInPath env "libvulkan.so" ps,
      hasFileInPath env "libvulkan.so.1" ps]
  | .mac =>
    asyncSome [
      hasFileInPath env "libvulkan.dylib",
      hasFileInPath env "libvulkan.dylib.1"]

/-- `detectMetalSupport` (lines 258-264): true exactly on mac. -/
def detectMetalSupport (platform : BinaryPlatform) : Bool :=
  platform == BinaryPlatform.mac

/-! ### `getArcGpuDeviceNames` (lines 17-75): parse the stdout of the
per-platform hardware-enumeration command (PowerShell WMI query on
Windows, `lspci` piped through grep on Linux, `system_profiler` piped
through grep on macOS) and keep Intel Arc entries. -/

def isHexDigitCI (c : Char) : Bool :=
  c.isDigit || ('A' ≤ c && c ≤ 'F') || ('a' ≤ c && c ≤ 'f')

/-- Case-insensitive prefix test for the Windows device-id pattern. -/
def ciPrefixMatch (pat cs : List Char) : Bool :=
  (pat.map Char.toLower).isPrefixOf (cs.map Char.toLower)

/-- Model of `line.match` against the case-insensitive pattern
`DeviceID: ` followed by four hex digits, capturing the four digits
uppercased; scanning resumes at the next position on a partial match,
as a regex engine does. -/
def findDeviceId : List Char → Option (List Char)
  | [] => none
  | c :: rest =>
    if ciPrefixMatch "deviceid: ".data (c :: rest) then
      let four := ((c :: rest).drop 10).take 4
      if four.length = 4 && four.all isHexDigitCI then some (four.map Char.toUpper)
      else findDeviceId rest
    else findDeviceId rest

/-- The fixed allow-list of known discrete-GPU device ids (lines 39-44). -/
def targetArcDeviceIds : List String :=
  ["7D55", "64A0", "7D45", "7D40", "7D67", "7D51", "7D41", "56A0",
   "56A1", "56A2", "56A5", "56A6", "E20B", "E20C", "E212", "E211"]

/-- The Windows name extraction
`line.split(' Name: ')[1]?.split(' VID: ')[0] || line`. -/
def extractArcWinName (line : String) : String :=
  match (strSplit line " Name: ").get? 1 with
  | none => line
  | some s =>
    let n := (strSplit s " VID: ").headD ""
    if n = "" then line else n

def getArcGpuDeviceNamesWin (stdout : String) : List String :=
  (((strSplit stdout "\n").map strTrim).filter (fun line =>
    if line.data.length = 0 then false
    else
      match findDeviceId line.data with
      | none => false
      | some four => targetArcDeviceIds.contains (String.mk four))).map extractArcWinName

/-- The three controller alternatives of the Linux line pattern, each
followed by a colon and a space. -/
def linuxControllerPats : List String :=
  ["VGA compatible controller: ", "3D controller: ", "Display controller: "]

/-- Try each alternative at the current position; the captured group
`(.+)` must be nonempty. -/
def matchControllerPrefix : List String → List Char → Option (List Char)
  | [], _ => none
  | p :: rest, cs =>
    if p.data.isPrefixOf cs then
      let after := cs.drop p.data.length
      if after.isEmpty then matchControllerPrefix rest cs else some after
    else matchControllerPrefix rest cs

def findControllerCapture : List Char → Option (List Char)
  | [] => none
  | c :: rest =>
    match matchControllerPrefix linuxControllerPats (c :: rest) with
    | some cap => some cap
    | none => findControllerCapture rest

def getArcGpuDeviceNamesLinux (stdout : String) : List String :=
  (((strSplit stdout "\n").filter (fun l => (strTrim l).data.length ≠ 0)).map (fun l =>
    match findControllerCapture l.data with
    | some cap => strTrim (String.mk cap)
    | none => strTrim l)).filter (fun name => strContains (strToLower name) "arc")

def getArcGpuDeviceNamesMac (stdout : String) : List String :=
  ((((strSplit stdout "\n").filter (fun l => strContains l "Chipset Model")).map
      (fun l => ((strSplit l ":").get? 1).map strTrim)).filterMap id).filter
    (fun name => name.data.length ≠ 0 && strContains (strToLower name) "arc")

/-- `getArcGpuDeviceNames`: the surrounding try/catch (lines 23-72) turns
any enumeration-command failure into the empty result. -/
def getArcGpuDeviceNames (env : DetectorEnv) (platform : BinaryPlatform) : List String :=
  match env.arcExec platform with
  | .error _ => []
  | .ok stdout =>
    match platform with
    | .win => getArcGpuDeviceNamesWin stdout
    | .linux => getArcGpuDeviceNamesLinux stdout
    | .mac => getArcGpuDeviceNamesMac stdout

/-- `detectSyclSupport` (lines 77-90): supported iff at least one Arc
device name was found. -/
def detectSyclSupport (env : DetectorEnv) (platform : BinaryPlatform) : Bool :=
  !(getArcGpuDeviceNames env platform).isEmpty

/-- The capability map returned by the detector: exactly the four
entries `cuda`, `vulkan`, `metal`, `sycl` (lines 109-114). -/
structure CapabilityMap where
  cuda : CudaSupport
  vulkan : Bool
  metal : Bool
  sycl : Bool
deriving DecidableEq

/-- `detectAvailableComputeLayers` (lines 92-115). -/
def detectAvailableComputeLayers (env : DetectorEnv) (platform : BinaryPlatform) :
    CapabilityMap :=
  { cuda := detectCudaSupport env platform,
    vulkan := detectVulkanSupport env platform,
    metal := detectMetalSupport platform,
    sycl := detectSyclSupport env platform }

/-- An environment with no files, failing directory listings, no
environment variables and a failing hardware-enumeration command. -/
def emptyDetectorEnv : DetectorEnv :=
  { pathExists := fun _ => false,
    readdir := fun _ => Except.error "ENOENT",
    defaultSearchPaths := [],
    envVar := fun _ => none,
    arcExec := fun _ => Except.error "command failed" }

/-! ### C10 -/

/-- C10: the detector returns a map with exactly the four entries
`cuda`, `vulkan`, `metal`, `sycl` (the `CapabilityMap` structure), and on
every platform other than the Windows and Linux families the `cuda`
entry is the record with both flags false. -/
theorem detect_cuda_false_off_win_linux (env : DetectorEnv) (platform : BinaryPlatform)
    (hw : platform ≠ BinaryPlatform.win) (hl : platform ≠ BinaryPlatform.linux) :
    detectAvailableComputeLayers env platform =
      { cuda := { hasNvidiaDriver := false, hasCudaRuntime := false },
        vulkan := detectVulkanSupport env platform,
        metal := detectMetalSupport platform,
        sycl := detectSyclSupport env platform } := by
  cases platform with
  | win => exact absurd rfl hw
  | linux => exact absurd rfl hl
  | mac => rfl

/-- C10 witness: on mac the cuda entry is all-false. -/
theorem detect_cuda_false_off_win_linux_witness :
    detectAvailableComputeLayers emptyDetectorEnv BinaryPlatform.mac =
      { cuda := { hasNvidiaDriver := false, hasCudaRuntime := false },
        vulkan := detectVulkanSupport emptyDetectorEnv BinaryPlatform.mac,
        metal := detectMetalSupport BinaryPlatform.mac,
        sycl := detectSyclSupport emptyDetectorEnv BinaryPlatform.mac } :=
  detect_cuda_false_off_win_linux emptyDetectorEnv BinaryPlatform.mac
    (by decide) (by decide)

/-! ### C8 -/

/-- C8 counterexample: on mac, with no library files anywhere (and every
other probe failing too), the `metal` capability is still `true`, so
"every capability in the returned map is false" fails. -/
theorem detect_mac_metal_counterexample :
    (detectAvailableComputeLayers emptyDetectorEnv BinaryPlatform.mac).metal = true ∧
      (detectAvailableComputeLayers emptyDetectorEnv BinaryPlatform.mac).vulkan = false ∧
      (detectAvailableComputeLayers emptyDetectorEnv BinaryPlatform.mac).cuda
        = { hasNvidiaDriver := false, hasCudaRuntime := false } ∧
      (detectAvailableComputeLayers emptyDetectorEnv BinaryPlatform.mac).sycl = false ∧
      (detectAvailableComputeLayers emptyDetectorEnv BinaryPlatform.mac).metal ≠ false := by
  refine ⟨by decide, by decide, by decide, by decide, by decide⟩

theorem hasFileInPath_eq_false {env : DetectorEnv}
    (h : ∀ s, env.pathExists s = false) (n : String) (ps : List (Option String)) :
    hasFileInPath env n ps = false := by
  unfold hasFileInPath
  rw [List.any_eq_false]
  intro d _
  rw [h]
  simp

theorem detectCudaSupport_eq_false {env : DetectorEnv}
    (h : ∀ s, env.pathExists s = false) (platform : BinaryPlatform) :
    detectCudaSupport env platform
      = { hasNvidiaDriver := false, hasCudaRuntime := false } := by
  cases platform <;>
    simp [detectCudaSupport, asyncSome, asyncEvery, hasFileInPath_eq_false h, h]

theorem detectVulkanSupport_eq_false {env : DetectorEnv}
    (h : ∀ s, env.pathExists s = false) (platform : BinaryPlatform) :
    detectVulkanSupport env platform = false := by
  cases platform <;>
    simp [detectVulkanSupport, asyncSome, hasFileInPath_eq_false h, h]

/-- C8 (amended): detection degrades per-probe instead of failing: (i)
when the hardware-enumeration command fails, only the `sycl` entry
degrades to `false` while the other entries still equal their own
independent probes; (ii) with no library files anywhere in the search
paths and the hardware enumeration finding no matching device, every
capability other than `metal` is false — and `metal` is true exactly on
mac (it is a first-party OS framework, not probed from files). -/
theorem detect_degrades_gracefully :
    (∀ (env : DetectorEnv) (platform : BinaryPlatform) (e : String),
      env.arcExec platform = Except.error e →
        (detectAvailableComputeLayers env platform).sycl = false ∧
        (detectAvailableComputeLayers env platform).cuda
            = detectCudaSupport env platform ∧
        (detectAvailableComputeLayers env platform).vulkan
            = detectVulkanSupport env platform ∧
        (detectAvailableComputeLayers env platform).metal
            = detectMetalSupport platform) ∧
    (∀ (env : DetectorEnv) (platform : BinaryPlatform),
      (∀ s, env.pathExists s = false) →
      getArcGpuDeviceNames env platform = [] →
        detectAvailableComputeLayers env platform =
          { cuda := { hasNvidiaDriver := false, hasCudaRuntime := false },
            vulkan := false,
            metal := platform == BinaryPlatform.mac,
            sycl := false }) := by
  constructor
  · intro env platform e harc
    refine ⟨?_, rfl, rfl, rfl⟩
    show (detectSyclSupport env platform) = false
    unfold detectSyclSupport getArcGpuDeviceNames
    rw [harc]
    rfl
  · intro env platform h harc
    show ({ cuda := detectCudaSupport env platform,
            vulkan := detectVulkanSupport env platform,
            metal := detectMetalSupport platform,
            sycl := detectSyclSupport env platform } : CapabilityMap) = _
    rw [detectCudaSupport_eq_false h, detectVulkanSupport_eq_false h]
    have hsycl : detectSyclSupport env platform = false := by
      unfold detectSyclSupport
      rw [harc]
      rfl
    rw [hsycl]
    rfl

/-- C8 witness: the amended theorem applied to the all-failing
environment on Windows. -/
theorem detect_degrades_gracefully_witness :
    detectAvailableComputeLayers emptyDetectorEnv BinaryPlatform.win =
      { cuda := { hasNvidiaDriver := false, hasCudaRuntime := false },
        vulkan := false,
        metal := BinaryPlatform.win == BinaryPlatform.mac,
        sycl := false } :=
  detect_degrades_gracefully.2 emptyDetectorEnv BinaryPlatform.win
    (fun _ => rfl) rfl

/-! ### C9 -/

theorem asyncEvery3_inv : ∀ a b c : Bool,
    asyncEvery [a, b, c] = true → a = true ∧ b = true ∧ c = true := by decide

theorem asyncEvery4_inv : ∀ a b c d : Bool,
    asyncEvery [a, b, c, d] = true →
      a = true ∧ b = true ∧ c = true ∧ d = true := by decide

theorem asyncSome3_inv : ∀ a b c : Bool,
    asyncSome [a, b, c] = true → a = true ∨ b = true ∨ c = true := by decide

theorem asyncSome4_inv : ∀ a b c d : Bool,
    asyncSome [a, b, c, d] = true →
      a = true ∨ b = true ∨ c = true ∨ d = true := by decide

/-- A file-name class is found when some acceptable filename of the class
exists under some effective search directory. -/
theorem hasFileInPath_iff (env : DetectorEnv) (n : String) (ps : List (Option String)) :
    hasFileInPath env n ps = true ↔
      ∃ d ∈ ps.filterMap id ++ env.defaultSearchPaths,
        env.pathExists (joinPath d n) = true := by
  unfold hasFileInPath
  rw [List.any_eq_true]

/-- C9: on both supported platforms, `hasCudaRuntime` is true only if
each of the three library classes — the CUDA runtime library
(`cudart`), the BLAS-equivalent library (`cublas`) and its `Lt`
companion — is found, where a class is found when any of its acceptable
version-suffixed filenames exists under any of the ranked
installation/search paths (conjunction across classes, disjunction
across suffixes and paths, the latter spelled out by
`hasFileInPath_iff`). -/
theorem hasCudaRuntime_requires_all_three (env : DetectorEnv) :
    ((detectCudaSupport env BinaryPlatform.win).hasCudaRuntime = true →
      (∃ n ∈ ["cudart64_110.dll", "cudart64_11.dll", "cudart64_12.dll",
          "cudart64_13.dll"], hasFileInPath env n (winCudaSearchPaths env) = true) ∧
      (∃ n ∈ ["cublas64_11.dll", "cublas64_12.dll", "cublas64_13.dll"],
        hasFileInPath env n (winCudaSearchPaths env) = true) ∧
      (∃ n ∈ ["cublasLt64_11.dll", "cublasLt64_12.dll", "cublasLt64_13.dll"],
        hasFileInPath env n (winCudaSearchPaths env) = true)) ∧
    ((detectCudaSupport env BinaryPlatform.linux).hasCudaRuntime = true →
      (∃ n ∈ ["libcudart.so", "libcudart.so.11", "libcudart.so.12",
          "libcudart.so.13"], hasFileInPath env n (linuxCudaSearchPaths env) = true) ∧
      (∃ n ∈ ["libcublas.so", "libcublas.so.11", "libcublas.so.12",
          "libcublas.so.13"], hasFileInPath env n (linuxCudaSearchPaths env) = true) ∧
      (∃ n ∈ ["libcublasLt.so", "libcublasLt.so.11", "libcublasLt.so.12",
          "libcublasLt.so.13"], hasFileInPath env n (linuxCudaSearchPaths env) = true)) := by
  constructor
  · intro h
    obtain ⟨h₁, h₂, h₃⟩ := asyncEvery3_inv _ _ _ h
    refine ⟨?_, ?_, ?_⟩
    · rcases asyncSome4_inv _ _ _ _ h₁ with hx | hx | hx | hx <;> exact ⟨_, by simp, hx⟩
    · rcases asyncSome3_inv _ _ _ h₂ with hx | hx | hx <;> exact ⟨_, by simp, hx⟩
    · rcases asyncSome3_inv _ _ _ h₃ with hx | hx | hx <;> exact ⟨_, by simp, hx⟩
  · intro h
    obtain ⟨-, h₂, h₃, h₄⟩ := asyncEvery4_inv _ _ _ _ h
    refine ⟨?_, ?_, ?_⟩
    · rcases asyncSome4_inv _ _ _ _ h₂ with hx | hx | hx | hx <;> exact ⟨_, by simp, hx⟩
    · rcases asyncSome4_inv _ _ _ _ h₃ with hx | hx | hx | hx <;> exact ⟨_, by simp, hx⟩
    · rcases asyncSome4_inv _ _ _ _ h₄ with hx | hx | hx | hx <;> exact ⟨_, by simp, hx⟩

/-- An environment in which every path exists, so every library probe
succeeds through the default search locations. -/
def allFilesEnv : DetectorEnv :=
  { pathExists := fun _ => true,
    readdir := fun _ => Except.ok [],
    defaultSearchPaths := ["/lib"],
    envVar := fun _ => none,
    arcExec := fun _ => Except.ok "" }

/-- C9 witness: in the everything-exists environment the Windows runtime
check passes and the theorem yields all three classes. -/
theorem hasCudaRuntime_requires_all_three_witness :
    (∃ n ∈ ["cudart64_110.dll", "cudart64_11.dll", "cudart64_12.dll",
        "cudart64_13.dll"], hasFileInPath allFilesEnv n (winCudaSearchPaths allFilesEnv) = true) ∧
    (∃ n ∈ ["cublas64_11.dll", "cublas64_12.dll", "cublas64_13.dll"],
      hasFileInPath allFilesEnv n (winCudaSearchPaths allFilesEnv) = true) ∧
    (∃ n ∈ ["cublasLt64_11.dll", "cublasLt64_12.dll", "cublasLt64_13.dll"],
      hasFileInPath allFilesEnv n (winCudaSearchPaths allFilesEnv) = true) :=
  (hasCudaRuntime_requires_all_three allFilesEnv).1 (by decide)

end NodeLlamaCpp
